import Mathlib

/-!
Shallow embedding of the MangaPDF batch-processing core:
ImageProcessor in src/core/image_processor.py and
PDFGenerator in src/manga_pdf_tool/core/pdf_generator.py.
Python float arithmetic on image geometry is modelled with exact
rationals; Python int() truncation, applied only to nonnegative values
here, is the rational floor.
-/

namespace MangaPDF

/-- Pixel with red, green, blue and alpha channels in 0..255. For images
whose mode has no alpha channel the alpha field is kept at 255. -/
structure Pixel where
  r : Nat
  g : Nat
  b : Nat
  a : Nat
  deriving Repr, DecidableEq

/-- In-memory decoded raster image (a PIL Image): mode string, pixel size
and pixel rows. For palette mode P the rows already hold the looked-up
palette colors, so the P to RGBA conversion step in the code is the
identity on rows. -/
structure PILImage where
  mode : String
  width : Nat
  height : Nat
  rows : List (List Pixel)
  deriving Repr, DecidableEq

/-- Alpha compositing of one pixel over an opaque white background, as
performed by background.paste with the alpha channel as mask onto a white
RGB canvas. -/
def blendOverWhite (p : Pixel) : Pixel :=
  { r := (p.r * p.a + 255 * (255 - p.a)) / 255,
    g := (p.g * p.a + 255 * (255 - p.a)) / 255,
    b := (p.b * p.a + 255 * (255 - p.a)) / 255,
    a := 255 }

/-- Modes that the code composites onto a white background
(image_processor.py lines 18, 73 and 95). -/
def transparencyModes : List String := ["RGBA", "P", "LA"]

/-- Image composited onto an opaque white RGB canvas of its own size:
Image.new RGB white plus background.paste of the image with its alpha as
mask (image_processor.py lines 19-23). -/
def compositeOnWhite (img : PILImage) : PILImage :=
  { mode := "RGB", width := img.width, height := img.height,
    rows := img.rows.map (fun row => row.map blendOverWhite) }

/-- Model of img.convert to RGB for modes without transparency or palette:
channel data reinterpreted as opaque three-channel color
(image_processor.py lines 24-25). -/
def convertRGB (img : PILImage) : PILImage :=
  { mode := "RGB", width := img.width, height := img.height,
    rows := img.rows.map (fun row => row.map (fun p => { p with a := 255 })) }

/-- Shared color-mode normalization block of load_image, create_thumbnail
and compress_image (image_processor.py lines 18-25, 73-80 and 95-102). -/
def normalizeMode (img : PILImage) : PILImage :=
  if img.mode ∈ transparencyModes then compositeOnWhite img
  else if img.mode ≠ "RGB" then convertRGB img
  else img

/-- load_image on an already decoded image: the pure normalization part of
image_processor.py lines 14-29 (decode failures return None and are
outside this pure model). -/
def load_image (img : PILImage) : PILImage := normalizeMode img

/-- Python int() truncation; every value it is applied to in this code is
nonnegative, where truncation equals the floor. -/
def pyInt (q : ℚ) : Nat := ⌊q⌋₊

/-- Computation target_h = int(orig_h * (target_w / orig_w)) of
image_processor.py lines 55-56. -/
def thumbTargetH (orig_w orig_h max_width : Nat) : Nat :=
  pyInt ((orig_h : ℚ) * ((max_width : ℚ) / (orig_w : ℚ)))

/-- Computation max_h = int(target_w * 1.6) of image_processor.py line 60;
the float literal 1.6 is the rational 8/5 up to a deviation far too small
to move the floor at any feasible width. -/
def thumbMaxH (target_w : Nat) : Nat := pyInt ((target_w : ℚ) * (8 / 5))

/-- Crop to the box (0, 0, w, h): the top-left w by h region, as in
img.crop of image_processor.py line 67. -/
def cropBox (img : PILImage) (w h : Nat) : PILImage :=
  { mode := img.mode, width := w, height := h,
    rows := (img.rows.take h).map (fun row => row.take w) }

/-- Encoded JPEG buffer. JPEG encoding is lossy on pixel values but records
the exact pixel dimensions; the entropy-coded payload is modelled by the
raster it encodes, and no theorem relies on pixel fidelity through it. -/
structure JPEGData where
  width : Nat
  height : Nat
  quality : Nat
  rows : List (List Pixel)
  deriving Repr, DecidableEq

/-- Encoding img.save to an in-memory JPEG buffer at a given quality. -/
def saveJPEG (img : PILImage) (quality : Nat) : JPEGData :=
  { width := img.width, height := img.height, quality := quality,
    rows := img.rows }

/-- Decoding a JPEG buffer yields an RGB image of the recorded size. -/
def decodeJPEG (d : JPEGData) : PILImage :=
  { mode := "RGB", width := d.width, height := d.height, rows := d.rows }

/-- create_thumbnail (image_processor.py lines 41-88) on a decoded image.
The LANCZOS resampling filter is abstracted as the resize argument; the
scaling geometry, the top crop, the mode normalization and the quality-90
JPEG encode follow the code. -/
def create_thumbnail (resize : PILImage → Nat → Nat → PILImage)
    (img : PILImage) (max_width : Nat) : JPEGData :=
  let orig_w := img.width
  let orig_h := img.height
  let target_w := max_width
  let target_h := thumbTargetH orig_w orig_h target_w
  let max_h := thumbMaxH target_w
  let resized := resize img target_w target_h
  let out := if target_h > max_h then cropBox resized target_w max_h else resized
  saveJPEG (normalizeMode out) 90

/-- compress_image (image_processor.py lines 91-109) on a decoded image:
mode normalization followed by a JPEG re-encode at the given quality, with
no resizing. -/
def compress_image (img : PILImage) (quality : Nat) : JPEGData :=
  saveJPEG (normalizeMode img) quality

/-- Property of a resize function: the result has exactly the requested
pixel dimensions, with matching row shapes (true of PIL Image.resize). -/
def SizeCorrect (resize : PILImage → Nat → Nat → PILImage) : Prop :=
  ∀ img w h, (resize img w h).width = w ∧ (resize img w h).height = h ∧
    (resize img w h).rows.length = h ∧ ∀ row ∈ (resize img w h).rows, row.length = w

/-- Property of a resize function: the color mode is unchanged (true of
PIL Image.resize). -/
def ModePreserving (resize : PILImage → Nat → Nat → PILImage) : Prop :=
  ∀ img w h, (resize img w h).mode = img.mode

/-- Concrete dimension- and mode-correct stand-in resampler used to
instantiate the thumbnail theorems on concrete inputs. -/
def modelResize (img : PILImage) (w h : Nat) : PILImage :=
  { mode := img.mode, width := w, height := h,
    rows := List.replicate h (List.replicate w { r := 0, g := 0, b := 0, a := 255 }) }

/-- One observable step of generate_pdf: a progress callback invocation or
a compress_image call on one path. -/
inductive Step where
  | emit (current total : Nat) (message : String) : Step
  | compressCall (path : String) : Step
  deriving Repr, DecidableEq

/-- Loop trace of generate_pdf lines 64-70: for each path, first the
progress report (i + 1, total), then the compress_image call. -/
def pageSteps (total : Nat) : Nat → List String → List Step
  | _, [] => []
  | i, p :: ps =>
      Step.emit (i + 1) total ("processing page") :: Step.compressCall p ::
        pageSteps total (i + 1) ps

/-- Conversion used by img2pdf.mm_to_pt: 72 points per inch at 25.4
millimeters per inch (the conversion the generated layout actually uses,
pdf_generator.py lines 91-99). -/
def mm_to_pt (mm : ℚ) : ℚ := 72 * mm / (254 / 10)

/-- Unused points-per-millimeter literal of pdf_generator.py lines 84-87:
page_width_pt, page_height_pt and margin_pt are computed with it and then
never read; the layout passed to img2pdf is built with mm_to_pt instead. -/
def LEGACY_PT_PER_MM : ℚ := 2834645669 / 1000000000

/-- Lookup PAGE_SIZES.get(page_size, (210, 297)) as called on the
non-original branch (pdf_generator.py lines 18-22 and 83): unknown keys
fall back to the A4 dimensions in millimeters. -/
def pageSizesGet (page_size : String) : ℚ × ℚ :=
  if page_size = "a4" then (210, 297)
  else if page_size = "letter" then (2159 / 10, 2794 / 10)
  else (210, 297)

/-- Layout options handed to img2pdf.get_layout_fun
(pdf_generator.py lines 78-101). -/
structure Layout where
  pagesizePt : Option (ℚ × ℚ)
  fitInto : Bool
  borderPt : Option (ℚ × ℚ × ℚ × ℚ)
  deriving Repr, DecidableEq

/-- Layout selection of generate_pdf lines 78-101. -/
def mkLayout (page_size : String) (margin_mm : ℚ) : Layout :=
  if page_size = "original" then
    { pagesizePt := none, fitInto := false, borderPt := none }
  else
    let page_dim := pageSizesGet page_size
    { pagesizePt := some (mm_to_pt page_dim.1, mm_to_pt page_dim.2),
      fitInto := true,
      borderPt := some (mm_to_pt margin_mm, mm_to_pt margin_mm,
        mm_to_pt margin_mm, mm_to_pt margin_mm) }

/-- Modelled from the spec: the fit-into placement done by img2pdf
FitMode.into with border options (the img2pdf library is outside this
repository). The image is scaled by one common factor chosen so that it
fits inside the available box, the page inset by the border on all four
sides. -/
def fitIntoBox (imgW imgH availW availH : ℚ) : ℚ × ℚ :=
  let s := min (availW / imgW) (availH / imgH)
  (s * imgW, s * imgH)

/-- Result of one generate_pdf call: the boolean return value, the page
buffers written to the output file (none when no write happened), the
layout handed to img2pdf (none when the call failed before building it),
and the observable step trace. -/
structure GenResult where
  ok : Bool
  written : Option (List (List Nat))
  layout : Option Layout
  steps : List Step
  deriving Repr, DecidableEq

/-- generate_pdf (pdf_generator.py lines 36-116). The filesystem and the
JPEG encoder behind ImageProcessor.compress_image are abstracted as the
compress argument: compress path quality is the byte string it returns,
empty on failure, and truthiness of the buffer gates collection exactly as
in the code. img2pdf.convert lays out one page per single-frame JPEG
buffer, so the written pages are the surviving buffers in input order. -/
def generate_pdf (compress : String → Nat → List Nat) (image_paths : List String)
    (page_size : String) (quality : Nat) (margin_mm : ℚ) : GenResult :=
  if image_paths = [] then
    { ok := false, written := none, layout := none, steps := [] }
  else
    let total := image_paths.length
    let processed := (image_paths.map (fun p => compress p quality)).filter
      (fun d => d ≠ [])
    let loopSteps := pageSteps total 0 image_paths
    if processed = [] then
      { ok := false, written := none, layout := none, steps := loopSteps }
    else
      { ok := true, written := some processed,
        layout := some (mkLayout page_size margin_mm),
        steps := loopSteps ++ [Step.emit total total ("generating PDF"),
          Step.emit total total ("done")] }

/-- Progress events of a step trace: the (current, total) arguments of the
callback invocations, in order. -/
def eventsOf (steps : List Step) : List (Nat × Nat) :=
  steps.filterMap (fun s => match s with
    | Step.emit c t _ => some (c, t)
    | Step.compressCall _ => none)

/-- Concrete RGB image, 3 wide by 2 tall, aspect ratio 2/3. -/
def imgWide : PILImage :=
  { mode := "RGB", width := 3, height := 2,
    rows := List.replicate 2 (List.replicate 3 { r := 10, g := 20, b := 30, a := 255 }) }

/-- Concrete RGB image, 5 wide by 10 tall, aspect ratio 2. -/
def imgTall : PILImage :=
  { mode := "RGB", width := 5, height := 10,
    rows := List.replicate 10 (List.replicate 5 { r := 1, g := 2, b := 3, a := 255 }) }

/-- Concrete one-pixel RGBA image with a fully transparent pixel. -/
def imgAlpha : PILImage :=
  { mode := "RGBA", width := 1, height := 1,
    rows := [[{ r := 5, g := 6, b := 7, a := 0 }]] }

/-- Width is preserved by the mode normalization block. -/
theorem normalizeMode_width (img : PILImage) : (normalizeMode img).width = img.width := by
  by_cases h1 : img.mode ∈ transparencyModes
  · simp [normalizeMode, h1, compositeOnWhite]
  · by_cases h2 : img.mode = "RGB"
    · simp [normalizeMode, h1, h2, transparencyModes]
    · simp [normalizeMode, h1, h2, convertRGB]

/-- Height is preserved by the mode normalization block. -/
theorem normalizeMode_height (img : PILImage) : (normalizeMode img).height = img.height := by
  by_cases h1 : img.mode ∈ transparencyModes
  · simp [normalizeMode, h1, compositeOnWhite]
  · by_cases h2 : img.mode = "RGB"
    · simp [normalizeMode, h1, h2, transparencyModes]
    · simp [normalizeMode, h1, h2, convertRGB]

/-- Mode normalization always lands in mode RGB. -/
theorem normalizeMode_mode (img : PILImage) : (normalizeMode img).mode = "RGB" := by
  by_cases h1 : img.mode ∈ transparencyModes
  · simp [normalizeMode, h1, compositeOnWhite]
  · by_cases h2 : img.mode = "RGB"
    · simp [normalizeMode, h1, h2, transparencyModes]
    · simp [normalizeMode, h1, h2, convertRGB]

/-- Mode normalization is the identity on an RGB image. -/
theorem normalizeMode_rgb (img : PILImage) (h : img.mode = "RGB") :
    normalizeMode img = img := by
  simp [normalizeMode, h, transparencyModes]

/-- Monotone step from the aspect-ratio bound to the two computed heights. -/
theorem thumbTargetH_le_thumbMaxH (orig_w orig_h max_width : Nat)
    (h : (orig_h : ℚ) / (orig_w : ℚ) ≤ 8 / 5) :
    thumbTargetH orig_w orig_h max_width ≤ thumbMaxH max_width := by
  unfold thumbTargetH thumbMaxH pyInt
  apply Nat.floor_mono
  have h0 : (0 : ℚ) ≤ (max_width : ℚ) := Nat.cast_nonneg max_width
  calc (orig_h : ℚ) * ((max_width : ℚ) / (orig_w : ℚ))
      = ((orig_h : ℚ) / (orig_w : ℚ)) * (max_width : ℚ) := by ring
    _ ≤ (8 / 5) * (max_width : ℚ) := mul_le_mul_of_nonneg_right h h0
    _ = (max_width : ℚ) * (8 / 5) := by ring

/-- Monotone step for aspect ratios above the cap. -/
theorem thumbMaxH_le_thumbTargetH (orig_w orig_h max_width : Nat)
    (h : 8 / 5 < (orig_h : ℚ) / (orig_w : ℚ)) :
    thumbMaxH max_width ≤ thumbTargetH orig_w orig_h max_width := by
  unfold thumbTargetH thumbMaxH pyInt
  apply Nat.floor_mono
  have h0 : (0 : ℚ) ≤ (max_width : ℚ) := Nat.cast_nonneg max_width
  calc (max_width : ℚ) * (8 / 5)
      = (8 / 5) * (max_width : ℚ) := by ring
    _ ≤ ((orig_h : ℚ) / (orig_w : ℚ)) * (max_width : ℚ) :=
        mul_le_mul_of_nonneg_right (le_of_lt h) h0
    _ = (orig_h : ℚ) * ((max_width : ℚ) / (orig_w : ℚ)) := by ring

/-- Closed form of the height cap as natural division. -/
theorem thumbMaxH_eq (max_width : Nat) : thumbMaxH max_width = 8 * max_width / 5 := by
  unfold thumbMaxH pyInt
  have h : ((max_width : ℚ) * (8 / 5)) = ((8 * max_width : ℕ) : ℚ) / ((5 : ℕ) : ℚ) := by
    push_cast
    ring
  rw [h, Nat.floor_div_nat, Nat.floor_natCast]

/-- Mode of a crop is the mode of the cropped image. -/
theorem cropBox_mode (img : PILImage) (w h : Nat) : (cropBox img w h).mode = img.mode := rfl

/-- Shape correctness of the stand-in resampler. -/
theorem modelResize_sizeCorrect : SizeCorrect modelResize := by
  intro img w h
  refine ⟨rfl, rfl, by simp [modelResize], ?_⟩
  intro row hrow
  simp only [modelResize, List.mem_replicate] at hrow
  rw [hrow.2]
  simp

/-- Mode preservation of the stand-in resampler. -/
theorem modelResize_modePreserving : ModePreserving modelResize := fun _ _ _ => rfl

/-- C6: normalization of any decoded image yields mode RGB with unchanged
pixel size; a transparency-carrying or palette mode is composited onto the
opaque white canvas, every pixel of that result is opaque, and a fully
transparent pixel becomes pure white; any other non-RGB mode is converted
directly to RGB. -/
theorem load_image_rgb_invariant (img : PILImage) :
    (load_image img).mode = "RGB" ∧
    (load_image img).width = img.width ∧
    (load_image img).height = img.height ∧
    (img.mode ∈ transparencyModes →
      load_image img = compositeOnWhite img ∧
      (∀ row ∈ (load_image img).rows, ∀ p ∈ row, p.a = 255) ∧
      (∀ row ∈ img.rows, ∀ p ∈ row, p.a = 0 →
        blendOverWhite p = { r := 255, g := 255, b := 255, a := 255 })) ∧
    (img.mode ∉ transparencyModes → img.mode ≠ "RGB" →
      load_image img = convertRGB img) := by
  refine ⟨normalizeMode_mode img, normalizeMode_width img, normalizeMode_height img, ?_, ?_⟩
  · intro h1
    have heq : load_image img = compositeOnWhite img := by
      simp [load_image, normalizeMode, h1]
    refine ⟨heq, ?_, ?_⟩
    · rw [heq]
      intro row hrow p hp
      simp only [compositeOnWhite, List.mem_map] at hrow
      obtain ⟨row0, _, hrow0⟩ := hrow
      subst hrow0
      simp only [List.mem_map] at hp
      obtain ⟨p0, _, hp0⟩ := hp
      subst hp0
      rfl
    · intro row _ p _ hpa
      simp [blendOverWhite, hpa]
  · intro h1 h2
    simp [load_image, normalizeMode, h1, h2]

/-- Witness for C6 at a concrete fully transparent RGBA pixel. -/
theorem load_image_rgb_invariant_witness :
    (load_image imgAlpha).mode = "RGB" ∧
    load_image imgAlpha = compositeOnWhite imgAlpha ∧
    blendOverWhite { r := 5, g := 6, b := 7, a := 0 } =
      { r := 255, g := 255, b := 255, a := 255 } :=
  ⟨(load_image_rgb_invariant imgAlpha).1,
   ((load_image_rgb_invariant imgAlpha).2.2.2.1 (by decide)).1,
   ((load_image_rgb_invariant imgAlpha).2.2.2.1 (by decide)).2.2
     [{ r := 5, g := 6, b := 7, a := 0 }] (by decide)
     { r := 5, g := 6, b := 7, a := 0 } (by decide) rfl⟩

/-- C9: decoding the buffer from compress_image yields exactly the source
pixel dimensions: compression re-encodes without resizing. -/
theorem compress_image_preserves_dims (img : PILImage) (quality : Nat) :
    (decodeJPEG (compress_image img quality)).width = img.width ∧
    (decodeJPEG (compress_image img quality)).height = img.height := by
  constructor
  · simp [decodeJPEG, compress_image, saveJPEG, normalizeMode_width]
  · simp [decodeJPEG, compress_image, saveJPEG, normalizeMode_height]

/-- C2: for any decoded source of positive width, the encoded thumbnail is
exactly max_width wide and at most floor(max_width * 1.6) tall, where that
floor is the natural division 8 * max_width / 5. -/
theorem create_thumbnail_width_and_cap
    (resize : PILImage → Nat → Nat → PILImage) (img : PILImage) (max_width : Nat)
    (hresize : SizeCorrect resize) (hw : 0 < img.width) :
    (decodeJPEG (create_thumbnail resize img max_width)).width = max_width ∧
    (decodeJPEG (create_thumbnail resize img max_width)).height ≤ thumbMaxH max_width ∧
    thumbMaxH max_width = 8 * max_width / 5 := by
  refine ⟨?_, ?_, thumbMaxH_eq max_width⟩
  · simp only [create_thumbnail, decodeJPEG, saveJPEG]
    rw [normalizeMode_width]
    by_cases hc : thumbTargetH img.width img.height max_width > thumbMaxH max_width
    · rw [if_pos hc]
      rfl
    · rw [if_neg hc]
      exact (hresize img max_width (thumbTargetH img.width img.height max_width)).1
  · simp only [create_thumbnail, decodeJPEG, saveJPEG]
    rw [normalizeMode_height]
    by_cases hc : thumbTargetH img.width img.height max_width > thumbMaxH max_width
    · rw [if_pos hc]
      exact le_refl (thumbMaxH max_width)
    · rw [if_neg hc]
      rw [(hresize img max_width (thumbTargetH img.width img.height max_width)).2.1]
      exact le_of_not_lt hc

/-- Witness for C2 at the concrete tall image and width 5. -/
theorem create_thumbnail_width_and_cap_witness :
    (decodeJPEG (create_thumbnail modelResize imgTall 5)).width = 5 ∧
    (decodeJPEG (create_thumbnail modelResize imgTall 5)).height ≤ thumbMaxH 5 ∧
    thumbMaxH 5 = 8 * 5 / 5 :=
  create_thumbnail_width_and_cap modelResize imgTall 5 modelResize_sizeCorrect (by decide)

/-- C1 amended: when the aspect ratio orig_h / orig_w is at most 1.6, no
cropping occurs and the encoded thumbnail height equals the floor (Python
int truncation) of orig_h * max_width / orig_w, not its rounding. -/
theorem create_thumbnail_height_floor
    (resize : PILImage → Nat → Nat → PILImage) (img : PILImage) (max_width : Nat)
    (hresize : SizeCorrect resize) (hw : 0 < img.width)
    (hratio : (img.height : ℚ) / (img.width : ℚ) ≤ 8 / 5) :
    (decodeJPEG (create_thumbnail resize img max_width)).height =
      thumbTargetH img.width img.height max_width := by
  have hle := thumbTargetH_le_thumbMaxH img.width img.height max_width hratio
  simp only [create_thumbnail, decodeJPEG, saveJPEG]
  rw [normalizeMode_height, if_neg (not_lt.mpr hle)]
  exact (hresize img max_width (thumbTargetH img.width img.height max_width)).2.1

/-- Witness for the amended C1 at the concrete wide image and width 100. -/
theorem create_thumbnail_height_floor_witness :
    (decodeJPEG (create_thumbnail modelResize imgWide 100)).height =
      thumbTargetH imgWide.width imgWide.height 100 :=
  create_thumbnail_height_floor modelResize imgWide 100 modelResize_sizeCorrect
    (by decide) (by norm_num [imgWide])

/-- C1 counterexample: the 3 wide, 2 tall source has ratio 2/3, at most
1.6; its thumbnail at width 100 has height 66, the floor of 200/3, while
the claimed round of 200/3 is 67. -/
theorem create_thumbnail_round_cex :
    ((imgWide.height : ℚ) / (imgWide.width : ℚ) ≤ 8 / 5) ∧
    (decodeJPEG (create_thumbnail modelResize imgWide 100)).height = 66 ∧
    round ((imgWide.height : ℚ) * ((100 : ℚ) / (imgWide.width : ℚ))) = 67 ∧
    (66 : ℕ) ≠ 67 := by
  have h66 : thumbTargetH 3 2 100 = 66 := by
    unfold thumbTargetH pyInt
    rw [Nat.floor_eq_iff (by norm_num)]
    norm_num
  have h160 : thumbMaxH 100 = 160 := by
    unfold thumbMaxH pyInt
    rw [Nat.floor_eq_iff (by norm_num)]
    norm_num
  refine ⟨by norm_num [imgWide], ?_, by norm_num [imgWide, round_eq], by decide⟩
  simp only [create_thumbnail, decodeJPEG, saveJPEG, imgWide]
  rw [normalizeMode_height, h66, h160, if_neg (by norm_num)]
  rfl

/-- C3: for an RGB source with aspect ratio above 1.6 the thumbnail is the
top crop of the scaled image: its height is floor(max_width * 1.6) and its
rows are exactly the first floor(max_width * 1.6) pixel rows of the image
resized to max_width wide. -/
theorem create_thumbnail_topcrop
    (resize : PILImage → Nat → Nat → PILImage) (img : PILImage) (max_width : Nat)
    (hresize : SizeCorrect resize) (hmode : ModePreserving resize)
    (himg : img.mode = "RGB") (hw : 0 < img.width)
    (hratio : 8 / 5 < (img.height : ℚ) / (img.width : ℚ)) :
    (decodeJPEG (create_thumbnail resize img max_width)).height = thumbMaxH max_width ∧
    (decodeJPEG (create_thumbnail resize img max_width)).rows =
      (resize img max_width (thumbTargetH img.width img.height max_width)).rows.take
        (thumbMaxH max_width) := by
  have hge := thumbMaxH_le_thumbTargetH img.width img.height max_width hratio
  have hmres : (resize img max_width (thumbTargetH img.width img.height max_width)).mode = "RGB" := by
    rw [hmode]
    exact himg
  obtain ⟨hrw, hrh, hrlen, hrows⟩ :=
    hresize img max_width (thumbTargetH img.width img.height max_width)
  have hmcrop : (cropBox (resize img max_width (thumbTargetH img.width img.height max_width))
      max_width (thumbMaxH max_width)).mode = "RGB" := hmres
  by_cases hc : thumbTargetH img.width img.height max_width > thumbMaxH max_width
  · constructor
    · simp only [create_thumbnail, decodeJPEG, saveJPEG]
      rw [normalizeMode_height, if_pos hc]
      rfl
    · simp only [create_thumbnail, decodeJPEG, saveJPEG]
      rw [if_pos hc, normalizeMode_rgb _ hmcrop]
      simp only [cropBox]
      conv_rhs =>
        rw [← List.map_id ((resize img max_width
          (thumbTargetH img.width img.height max_width)).rows.take (thumbMaxH max_width))]
      apply List.map_congr_left
      intro row hrow
      have hmem : row ∈ (resize img max_width
          (thumbTargetH img.width img.height max_width)).rows :=
        List.take_subset _ _ hrow
      have hlen := hrows row hmem
      rw [← hlen]
      exact List.take_length row
  · have heq : thumbTargetH img.width img.height max_width = thumbMaxH max_width :=
      le_antisymm (le_of_not_lt hc) hge
    constructor
    · simp only [create_thumbnail, decodeJPEG, saveJPEG]
      rw [normalizeMode_height, if_neg hc, hrh, heq]
    · simp only [create_thumbnail, decodeJPEG, saveJPEG]
      rw [if_neg hc, normalizeMode_rgb _ hmres,
        List.take_of_length_le (by rw [hrlen, heq])]

/-- Witness for C3 at the concrete tall image and width 5. -/
theorem create_thumbnail_topcrop_witness :
    (decodeJPEG (create_thumbnail modelResize imgTall 5)).height = thumbMaxH 5 ∧
    (decodeJPEG (create_thumbnail modelResize imgTall 5)).rows =
      (modelResize imgTall 5 (thumbTargetH imgTall.width imgTall.height 5)).rows.take
        (thumbMaxH 5) :=
  create_thumbnail_topcrop modelResize imgTall 5 modelResize_sizeCorrect
    modelResize_modePreserving rfl (by decide) (by norm_num [imgTall])

/-- Length of the loop trace: two steps per path. -/
theorem pageSteps_length (ps : List String) : ∀ (total i : Nat),
    (pageSteps total i ps).length = 2 * ps.length := by
  induction ps with
  | nil => intro total i; rfl
  | cons p ps ih =>
      intro total i
      simp only [pageSteps, List.length_cons, ih total (i + 1)]
      omega

/-- Index computation in the loop trace: the callback for page k sits right
before the compress call for page k. -/
theorem pageSteps_get (ps : List String) : ∀ (i k total : Nat) (h : k < ps.length),
    (pageSteps total i ps)[2 * k]? =
      some (Step.emit (i + k + 1) total ("processing page")) ∧
    (pageSteps total i ps)[2 * k + 1]? =
      some (Step.compressCall (ps.get ⟨k, h⟩)) := by
  induction ps with
  | nil => intro i k total h; simp at h
  | cons p ps ih =>
      intro i k total h
      cases k with
      | zero =>
          constructor
          · rfl
          · simp [pageSteps]
      | succ k =>
          have h2 : k < ps.length := Nat.lt_of_succ_lt_succ h
          constructor
          · rw [show 2 * (k + 1) = 2 * k + 1 + 1 from by omega]
            simp only [pageSteps, List.getElem?_cons_succ]
            rw [show i + (k + 1) + 1 = (i + 1) + k + 1 from by omega]
            exact (ih (i + 1) k total h2).1
          · rw [show 2 * (k + 1) + 1 = (2 * k + 1) + 1 + 1 from by omega]
            simp only [pageSteps, List.getElem?_cons_succ]
            exact (ih (i + 1) k total h2).2

/-- Events distribute over trace concatenation. -/
theorem eventsOf_append (a b : List Step) :
    eventsOf (a ++ b) = eventsOf a ++ eventsOf b :=
  List.filterMap_append a b _

/-- Every event of the loop trace is bounded by the starting offset plus
the number of remaining pages, with the recorded total unchanged. -/
theorem events_pageSteps_bound (ps : List String) : ∀ (i total : Nat),
    ∀ e ∈ eventsOf (pageSteps total i ps), e.1 ≤ i + ps.length ∧ e.2 = total := by
  induction ps with
  | nil => intro i total e he; simp [pageSteps, eventsOf] at he
  | cons p ps ih =>
      intro i total e he
      simp only [pageSteps, eventsOf, List.filterMap_cons] at he
      rcases List.mem_cons.mp he with h | h
      · subst h
        refine ⟨by simp only [List.length_cons]; omega, rfl⟩
      · have hb := ih (i + 1) total e h
        refine ⟨by simp only [List.length_cons]; omega, hb.2⟩

/-- Head of the loop-trace events followed by any tail. -/
theorem events_pageSteps_head (ps : List String) (i total : Nat)
    (tailEv : List (Nat × Nat)) :
    (eventsOf (pageSteps total i ps) ++ tailEv).head? =
      if ps = [] then tailEv.head? else some (i + 1, total) := by
  cases ps with
  | nil => simp [pageSteps, eventsOf]
  | cons p ps => simp [pageSteps, eventsOf, List.filterMap_cons]

/-- Chain property of the loop-trace events extended by a monotone tail. -/
theorem chain_le_events (ps : List String) : ∀ (i total : Nat)
    (tailEv : List (Nat × Nat)),
    List.Chain' (fun a b => a.1 ≤ b.1) tailEv →
    (∀ y ∈ tailEv.head?, i + ps.length ≤ y.1) →
    List.Chain' (fun a b => a.1 ≤ b.1) (eventsOf (pageSteps total i ps) ++ tailEv) := by
  induction ps with
  | nil =>
      intro i total tailEv htail _
      simpa [pageSteps, eventsOf] using htail
  | cons p ps ih =>
      intro i total tailEv htail hhead
      simp only [pageSteps, eventsOf, List.filterMap_cons, List.cons_append]
      rw [List.chain'_cons']
      constructor
      · intro y hy
        rw [show (List.filterMap _ (pageSteps total (i + 1) ps) ++ tailEv) =
            (eventsOf (pageSteps total (i + 1) ps) ++ tailEv) from rfl,
          events_pageSteps_head ps (i + 1) total tailEv] at hy
        by_cases hps : ps = []
        · rw [if_pos hps] at hy
          have hb := hhead y hy
          simp only [List.length_cons] at hb
          simpa using by omega
        · rw [if_neg hps] at hy
          simp only [Option.mem_some_iff] at hy
          subst hy
          simp
      · exact ih (i + 1) total tailEv htail (by
          intro y hy
          have hb := hhead y hy
          simp only [List.length_cons] at hb
          omega)

/-- Filtering the surviving buffers commutes with mapping compression over
the path list. -/
theorem filter_map_ne_nil (f : String → List Nat) (l : List String) :
    (l.map f).filter (fun d => d ≠ []) = (l.filter (fun p => f p ≠ [])).map f := by
  induction l with
  | nil => rfl
  | cons p ps ih =>
      simp only [List.map_cons, List.filter_cons]
      by_cases hp : f p = []
      · rw [if_neg (by simp [hp]), if_neg (by simp [hp])]
        exact ih
      · rw [if_pos (by simp [hp]), if_pos (by simp [hp]), List.map_cons, ih]

/-- C5: generate_pdf fails and writes nothing when the path list is empty,
and likewise when every compression returns the empty buffer. -/
theorem generate_pdf_no_output
    (compress : String → Nat → List Nat) (image_paths : List String)
    (page_size : String) (quality : Nat) (margin_mm : ℚ)
    (h : image_paths = [] ∨ ∀ p ∈ image_paths, compress p quality = []) :
    (generate_pdf compress image_paths page_size quality margin_mm).ok = false ∧
    (generate_pdf compress image_paths page_size quality margin_mm).written = none := by
  rcases h with h | h
  · subst h
    exact ⟨rfl, rfl⟩
  · by_cases hnil : image_paths = []
    · subst hnil
      exact ⟨rfl, rfl⟩
    · have hproc : (image_paths.map (fun p => compress p quality)).filter
          (fun d => d ≠ []) = [] := by
        rw [filter_map_ne_nil]
        have hfil : image_paths.filter (fun p => compress p quality ≠ []) = [] :=
          List.filter_eq_nil_iff.mpr (by intro a ha; simp [h a ha])
        rw [hfil]
        rfl
      simp only [generate_pdf]
      rw [if_neg hnil, if_pos hproc]
      exact ⟨rfl, rfl⟩

/-- Witness for C5 with the empty path list. -/
theorem generate_pdf_no_output_witness :
    (generate_pdf (fun _ _ => [1]) [] ("a4") 90 0).ok = false ∧
    (generate_pdf (fun _ _ => [1]) [] ("a4") 90 0).written = none :=
  generate_pdf_no_output (fun _ _ => [1]) [] ("a4") 90 0 (Or.inl rfl)

/-- C4: when at least one path compresses to a nonempty buffer, generate_pdf
succeeds and writes exactly the surviving buffers, one page each, in input
order: the failing items are silently omitted. -/
theorem generate_pdf_pages_in_order
    (compress : String → Nat → List Nat) (image_paths : List String)
    (page_size : String) (quality : Nat) (margin_mm : ℚ)
    (hk : 1 ≤ (image_paths.filter (fun p => compress p quality ≠ [])).length) :
    (generate_pdf compress image_paths page_size quality margin_mm).ok = true ∧
    (generate_pdf compress image_paths page_size quality margin_mm).written =
      some ((image_paths.filter (fun p => compress p quality ≠ [])).map
        (fun p => compress p quality)) ∧
    ((image_paths.filter (fun p => compress p quality ≠ [])).map
        (fun p => compress p quality)).length =
      (image_paths.filter (fun p => compress p quality ≠ [])).length := by
  have hnil : image_paths ≠ [] := by
    intro hcon
    subst hcon
    simp at hk
  have hfm := filter_map_ne_nil (fun p => compress p quality) image_paths
  have hne : (image_paths.map (fun p => compress p quality)).filter
      (fun d => d ≠ []) ≠ [] := by
    rw [hfm]
    intro hcon
    rw [List.map_eq_nil_iff] at hcon
    rw [hcon] at hk
    simp at hk
  refine ⟨?_, ?_, List.length_map _ _⟩
  · simp only [generate_pdf]
    rw [if_neg hnil, if_neg hne]
  · simp only [generate_pdf]
    rw [if_neg hnil, if_neg hne, hfm]

/-- Compression stub used to instantiate C4: path b succeeds, every other
path fails. -/
def compressStub (p : String) (_quality : Nat) : List Nat :=
  if p = "b" then [7] else []

/-- Witness for C4: of two paths one survives, the output has that single
page and the call succeeds. -/
theorem generate_pdf_pages_in_order_witness :
    (generate_pdf compressStub ["a", "b"] ("original") 90 0).ok = true ∧
    (generate_pdf compressStub ["a", "b"] ("original") 90 0).written =
      some (((["a", "b"] : List String).filter (fun p => compressStub p 90 ≠ [])).map
        (fun p => compressStub p 90)) ∧
    ((((["a", "b"] : List String).filter (fun p => compressStub p 90 ≠ [])).map
        (fun p => compressStub p 90))).length =
      ((["a", "b"] : List String).filter (fun p => compressStub p 90 ≠ [])).length :=
  generate_pdf_pages_in_order compressStub ["a", "b"] ("original") 90 0 (by decide)

/-- C7 amended: within one generate_pdf call the callback counts are
nondecreasing (not strictly increasing: the final callbacks repeat the
total), no count exceeds the recorded total, and the per-page callback for
page i is emitted immediately BEFORE that page is compressed, at trace
positions 2i and 2i+1. -/
theorem generate_pdf_progress
    (compress : String → Nat → List Nat) (image_paths : List String)
    (page_size : String) (quality : Nat) (margin_mm : ℚ) :
    List.Chain' (fun a b => a.1 ≤ b.1)
      (eventsOf (generate_pdf compress image_paths page_size quality margin_mm).steps) ∧
    (∀ e ∈ eventsOf (generate_pdf compress image_paths page_size quality margin_mm).steps,
      e.1 ≤ e.2) ∧
    (∀ i : Nat, ∀ hi : i < image_paths.length,
      (generate_pdf compress image_paths page_size quality margin_mm).steps[2 * i]? =
        some (Step.emit (i + 1) image_paths.length ("processing page")) ∧
      (generate_pdf compress image_paths page_size quality margin_mm).steps[2 * i + 1]? =
        some (Step.compressCall (image_paths.get ⟨i, hi⟩))) := by
  by_cases hnil : image_paths = []
  · subst hnil
    refine ⟨by simp [generate_pdf, eventsOf], by simp [generate_pdf, eventsOf], ?_⟩
    intro i hi
    simp at hi
  · have hsteps : (generate_pdf compress image_paths page_size quality margin_mm).steps =
        pageSteps image_paths.length 0 image_paths ∨
        (generate_pdf compress image_paths page_size quality margin_mm).steps =
        pageSteps image_paths.length 0 image_paths ++
          [Step.emit image_paths.length image_paths.length ("generating PDF"),
           Step.emit image_paths.length image_paths.length ("done")] := by
      by_cases hproc : (image_paths.map (fun p => compress p quality)).filter
          (fun d => d ≠ []) = []
      · left
        simp only [generate_pdf]
        rw [if_neg hnil, if_pos hproc]
      · right
        simp only [generate_pdf]
        rw [if_neg hnil, if_neg hproc]
    rcases hsteps with h | h
    · refine ⟨?_, ?_, ?_⟩
      · rw [h]
        have := chain_le_events image_paths 0 image_paths.length []
          List.chain'_nil (by simp)
        simpa using this
      · rw [h]
        intro e he
        have hb := events_pageSteps_bound image_paths 0 image_paths.length e he
        omega
      · intro i hi
        rw [h]
        have hg := pageSteps_get image_paths 0 i image_paths.length hi
        refine ⟨?_, hg.2⟩
        rw [show i + 1 = 0 + i + 1 from by omega]
        exact hg.1
    · refine ⟨?_, ?_, ?_⟩
      · rw [h, eventsOf_append]
        apply chain_le_events
        · exact List.chain'_pair.mpr (le_refl _)
        · intro y hy
          simp only [eventsOf, List.filterMap_cons, List.filterMap_nil, List.head?] at hy
          simp only [Option.mem_some_iff] at hy
          subst hy
          omega
      · rw [h, eventsOf_append]
        intro e he
        rcases List.mem_append.mp he with he | he
        · have hb := events_pageSteps_bound image_paths 0 image_paths.length e he
          omega
        · simp only [eventsOf, List.filterMap_cons, List.filterMap_nil] at he
          rcases List.mem_cons.mp he with he | he
          · subst he; exact le_refl _
          · simp only [List.mem_singleton] at he
            subst he; exact le_refl _
      · intro i hi
        rw [h]
        have hlen := pageSteps_length image_paths image_paths.length 0
        rw [List.getElem?_append_left (by rw [hlen]; omega),
          List.getElem?_append_left (by rw [hlen]; omega)]
        have hg := pageSteps_get image_paths 0 i image_paths.length hi
        refine ⟨?_, hg.2⟩
        rw [show i + 1 = 0 + i + 1 from by omega]
        exact hg.1

/-- Witness for the amended C7 at one concrete path. -/
theorem generate_pdf_progress_witness :
    (generate_pdf (fun _ _ => [9]) ["x"] ("a4") 90 0).steps[2 * 0]? =
      some (Step.emit (0 + 1) (["x"] : List String).length ("processing page")) ∧
    (generate_pdf (fun _ _ => [9]) ["x"] ("a4") 90 0).steps[2 * 0 + 1]? =
      some (Step.compressCall ((["x"] : List String).get ⟨0, by decide⟩)) ∧
    List.Chain' (fun a b => a.1 ≤ b.1)
      (eventsOf (generate_pdf (fun _ _ => [9]) ["x"] ("a4") 90 0).steps) :=
  ⟨((generate_pdf_progress (fun _ _ => [9]) ["x"] ("a4") 90 0).2.2 0 (by decide)).1,
   ((generate_pdf_progress (fun _ _ => [9]) ["x"] ("a4") 90 0).2.2 0 (by decide)).2,
   (generate_pdf_progress (fun _ _ => [9]) ["x"] ("a4") 90 0).1⟩

/-- C7 counterexample: one successfully compressed path produces the trace
emit(1,1), compress, emit(1,1), emit(1,1): the per-page callback precedes
the compress call, and the count sequence 1, 1, 1 is not strictly
increasing from one call to the next. -/
theorem generate_pdf_progress_strict_cex :
    (generate_pdf (fun _ _ => [7]) ["a"] ("original") 90 0).steps =
      [Step.emit 1 1 ("processing page"), Step.compressCall ("a"),
       Step.emit 1 1 ("generating PDF"), Step.emit 1 1 ("done")] ∧
    eventsOf (generate_pdf (fun _ _ => [7]) ["a"] ("original") 90 0).steps =
      [(1, 1), (1, 1), (1, 1)] ∧
    ¬ List.Chain' (fun a b : Nat × Nat => a.1 < b.1) [(1, 1), (1, 1), (1, 1)] := by
  refine ⟨by decide, by decide, by simp [List.chain'_cons]⟩

/-- C8 amended: the a4 and letter layouts use the fixed page sizes 210 by
297 and 215.9 by 279.4 millimeters converted at 72 / 25.4 points per
millimeter by mm_to_pt, a fit-into mode, and the margin as border on all
four sides; the fit-into placement keeps the image inside the available
box on both axes and preserves its aspect ratio. -/
theorem generate_pdf_fixed_pagesize (margin_mm imgW imgH availW availH : ℚ)
    (hiW : 0 < imgW) (hiH : 0 < imgH) :
    mkLayout ("a4") margin_mm =
      { pagesizePt := some (mm_to_pt 210, mm_to_pt 297), fitInto := true,
        borderPt := some (mm_to_pt margin_mm, mm_to_pt margin_mm,
          mm_to_pt margin_mm, mm_to_pt margin_mm) } ∧
    mkLayout ("letter") margin_mm =
      { pagesizePt := some (mm_to_pt (2159 / 10), mm_to_pt (2794 / 10)), fitInto := true,
        borderPt := some (mm_to_pt margin_mm, mm_to_pt margin_mm,
          mm_to_pt margin_mm, mm_to_pt margin_mm) } ∧
    (fitIntoBox imgW imgH availW availH).1 ≤ availW ∧
    (fitIntoBox imgW imgH availW availH).2 ≤ availH ∧
    (fitIntoBox imgW imgH availW availH).1 * imgH =
      (fitIntoBox imgW imgH availW availH).2 * imgW := by
  refine ⟨by simp [mkLayout, pageSizesGet], by simp [mkLayout, pageSizesGet], ?_, ?_, ?_⟩
  · calc (fitIntoBox imgW imgH availW availH).1
        = min (availW / imgW) (availH / imgH) * imgW := rfl
      _ ≤ (availW / imgW) * imgW :=
          mul_le_mul_of_nonneg_right (min_le_left _ _) (le_of_lt hiW)
      _ = availW := div_mul_cancel₀ availW (ne_of_gt hiW)
  · calc (fitIntoBox imgW imgH availW availH).2
        = min (availW / imgW) (availH / imgH) * imgH := rfl
      _ ≤ (availH / imgH) * imgH :=
          mul_le_mul_of_nonneg_right (min_le_right _ _) (le_of_lt hiH)
      _ = availH := div_mul_cancel₀ availH (ne_of_gt hiH)
  · simp only [fitIntoBox]
    ring

/-- Witness for the amended C8 at a unit square image. -/
theorem generate_pdf_fixed_pagesize_witness :
    mkLayout ("a4") 0 =
      { pagesizePt := some (mm_to_pt 210, mm_to_pt 297), fitInto := true,
        borderPt := some (mm_to_pt 0, mm_to_pt 0, mm_to_pt 0, mm_to_pt 0) } ∧
    mkLayout ("letter") 0 =
      { pagesizePt := some (mm_to_pt (2159 / 10), mm_to_pt (2794 / 10)), fitInto := true,
        borderPt := some (mm_to_pt 0, mm_to_pt 0, mm_to_pt 0, mm_to_pt 0) } ∧
    (fitIntoBox 1 1 2 3).1 ≤ 2 ∧
    (fitIntoBox 1 1 2 3).2 ≤ 3 ∧
    (fitIntoBox 1 1 2 3).1 * 1 = (fitIntoBox 1 1 2 3).2 * 1 :=
  generate_pdf_fixed_pagesize 0 1 1 2 3 (by norm_num) (by norm_num)

/-- C8 counterexample: the a4 layout page size is built with mm_to_pt, at
exactly 72 / 25.4 points per millimeter, which differs from multiplying by
the claimed constant 2.834645669 on both page dimensions. -/
theorem pt_per_mm_cex :
    (mkLayout ("a4") 0).pagesizePt = some (mm_to_pt 210, mm_to_pt 297) ∧
    mm_to_pt 210 ≠ 210 * LEGACY_PT_PER_MM ∧
    mm_to_pt 297 ≠ 297 * LEGACY_PT_PER_MM := by
  refine ⟨by simp [mkLayout, pageSizesGet], by norm_num [mm_to_pt, LEGACY_PT_PER_MM],
    by norm_num [mm_to_pt, LEGACY_PT_PER_MM]⟩

/-- C10: any page-size string other than original, a4 and letter behaves
exactly like a4: the call does not fail on it, and the layout silently
falls back to the fixed A4 page of 210 by 297 millimeters. -/
theorem generate_pdf_unknown_policy
    (compress : String → Nat → List Nat) (image_paths : List String)
    (page_size : String) (quality : Nat) (margin_mm : ℚ)
    (h1 : page_size ≠ "original") (h2 : page_size ≠ "a4") (h3 : page_size ≠ "letter") :
    generate_pdf compress image_paths page_size quality margin_mm =
      generate_pdf compress image_paths ("a4") quality margin_mm ∧
    mkLayout page_size margin_mm = mkLayout ("a4") margin_mm ∧
    (mkLayout page_size margin_mm).pagesizePt = some (mm_to_pt 210, mm_to_pt 297) := by
  have hL : mkLayout page_size margin_mm = mkLayout ("a4") margin_mm := by
    simp [mkLayout, pageSizesGet, h1, h2, h3]
  refine ⟨?_, hL, ?_⟩
  · simp [generate_pdf, hL]
  · rw [hL]
    simp [mkLayout, pageSizesGet]

/-- Witness for C10 at the unknown policy string foo. -/
theorem generate_pdf_unknown_policy_witness :
    generate_pdf (fun _ _ => [5]) ["a"] ("foo") 90 0 =
      generate_pdf (fun _ _ => [5]) ["a"] ("a4") 90 0 ∧
    mkLayout ("foo") 0 = mkLayout ("a4") 0 ∧
    (mkLayout ("foo") 0).pagesizePt = some (mm_to_pt 210, mm_to_pt 297) :=
  generate_pdf_unknown_policy (fun _ _ => [5]) ["a"] ("foo") 90 0
    (by decide) (by decide) (by decide)

end MangaPDF
